import Mathlib

/-!
Verification of the robobloq-led-linux core against its specification.

The development shallowly embeds the Python sources:
  - `src/robobloq_led/device.py`  — report encoder, device locator, controller
  - `src/robobloq_led/webapp.py`  — brightness/fade/effect/sync handlers and
    the asyncio mode-switch coordination
  - `src/robobloq_led/cli.py`     — command line entry point

Machine integers are modelled as `Nat`/`Int` with explicit `% 256` where the
code masks with `& 0xFF`; Python float arithmetic in the fade/brightness code
is embedded as exact rational arithmetic with Python's `int()` truncation and
banker's-rounding `round()` made explicit; fallible code returns `Except`.
-/

/-! ## Report encoder (device.py) -/

/-- The 64-byte template `BASE_HEX` from device.py, decoded from its hex
string: `5242100e86010000ff4142000000feb9` followed by 48 zero bytes. -/
def baseHex : List Nat :=
  [0x52, 0x42, 0x10, 0x0e, 0x86, 0x01, 0x00, 0x00,
   0xff, 0x41, 0x42, 0x00, 0x00, 0x00, 0xfe, 0xb9,
   0, 0, 0, 0, 0, 0, 0, 0, 0, 0, 0, 0, 0, 0, 0, 0,
   0, 0, 0, 0, 0, 0, 0, 0, 0, 0, 0, 0, 0, 0, 0, 0,
   0, 0, 0, 0, 0, 0, 0, 0, 0, 0, 0, 0, 0, 0, 0, 0]

/-- `RobobloqController._build_report`: start from the template, overwrite
byte 3 with the counter, bytes 6/7/8 with r/g/b (each masked `& 0xFF`, i.e.
`% 256`), then byte 15 with `sum(pkt[0:15]) & 0xFF`.  The source also guards
`len(pkt) == 64`, which always holds for this template (see
`baseHex_length`), so the `ValueError` branch is dead. -/
def buildReport (counter r g b : Nat) : List Nat :=
  let pkt := (((baseHex.set 3 (counter % 256)).set 6 (r % 256)).set 7
      (g % 256)).set 8 (b % 256)
  pkt.set 15 ((pkt.take 15).sum % 256)

theorem baseHex_length : baseHex.length = 64 := rfl

/-! ## Device controller (device.py) -/

/-- Outcome of one low-level transport attempt (raw stream write or
feature-report ioctl): either it returns normally or raises `OSError`. -/
inductive Outcome
  | ok
  | err
deriving DecidableEq

/-- The transport behaviour the OS exhibits for one `set_color` call:
what the raw write would do and what the feature-report fallback would do. -/
structure Transport where
  raw : Outcome
  feature : Outcome
deriving DecidableEq

/-- `RobobloqController`: a device path and the rolling sequence counter,
which the dataclass defaults to `0x0E`. -/
structure Controller where
  dev : String
  counter : Nat := 0x0E
deriving DecidableEq

/-- `RobobloqController.set_color`: build the report, try the raw write,
fall back to the feature report on `OSError`; if both fail the error
propagates before the increment line runs, otherwise
`counter = (counter + 1) & 0xFF` afterwards.  Returns the new controller
state together with the report that was written. -/
def Controller.setColor (c : Controller) (r g b : Nat) (t : Transport) :
    Except Unit (Controller × List Nat) :=
  let report := buildReport c.counter r g b
  match t.raw with
  | .ok => .ok ({ c with counter := (c.counter + 1) % 256 }, report)
  | .err =>
    match t.feature with
    | .ok => .ok ({ c with counter := (c.counter + 1) % 256 }, report)
    | .err => .error ()

/-- A sequence of `set_color` calls: each element gives the rgb arguments and
the transport behaviour for that call.  On the first call where both
transports fail the `OSError` propagates; the error value records the
controller state at the moment of the raise (its counter untouched by the
failing call). -/
def runSetColors (c : Controller) :
    List ((Nat × Nat × Nat) × Transport) → Except Controller Controller
  | [] => .ok c
  | (rgb, t) :: rest =>
    match c.setColor rgb.1 rgb.2.1 rgb.2.2 t with
    | .ok (c', _) => runSetColors c' rest
    | .error _ => .error c

/-! ## Module-level convenience function and CLI (device.py, cli.py) -/

/-- `RobobloqController(dev=dev)` constructed with the dataclass default
counter. -/
def mkController (dev : String) : Controller :=
  { dev := dev }

/-- Module-level `set_color` in device.py: constructs a fresh
`RobobloqController` on every call and performs one `set_color` on it. -/
def moduleSetColor (dev : String) (r g b : Nat) (t : Transport) :
    Except Unit (Controller × List Nat) :=
  (mkController dev).setColor r g b t

/-- `cli.main` after argument handling: constructs a fresh controller for the
resolved device path and performs one `set_color`. -/
def cliSetColor (dev : String) (r g b : Nat) (t : Transport) :
    Except Unit (Controller × List Nat) :=
  (mkController dev).setColor r g b t

/-! ## Rainbow wheel (webapp.py) -/

/-- `wheel` from webapp.py: reduce the position `% 256` (Python's `%` with a
positive modulus is non-negative, as is Lean's `Int.emod`), then three
85-wide bands. -/
def wheel (pos : Int) : Int × Int × Int :=
  let p := pos % 256
  if p < 85 then
    (p * 3, 255 - p * 3, 0)
  else if p < 170 then
    ((255 - (p - 85) * 3, 0, (p - 85) * 3))
  else
    ((0, (p - 170) * 3, 255 - (p - 170) * 3))

/-! ## Claim theorems for the encoder, controller, counter and wheel -/

set_option maxHeartbeats 1000000

/-- Claim C1: for every counter and color, `_build_report` produces a 64-byte
report whose byte 3 is the counter mod 256, bytes 6/7/8 are r/g/b mod 256,
byte 15 is the arithmetic sum of bytes 0..14 of the final report mod 256, and
every other byte equals the corresponding template byte. -/
theorem build_report_spec (c r g b : Nat) :
    (buildReport c r g b).length = 64
    ∧ (buildReport c r g b)[3]? = some (c % 256)
    ∧ (buildReport c r g b)[6]? = some (r % 256)
    ∧ (buildReport c r g b)[7]? = some (g % 256)
    ∧ (buildReport c r g b)[8]? = some (b % 256)
    ∧ (buildReport c r g b)[15]? =
        some ((((buildReport c r g b).take 15).sum) % 256)
    ∧ (∀ i, i < 64 → i ≠ 3 → i ≠ 6 → i ≠ 7 → i ≠ 8 → i ≠ 15 →
        (buildReport c r g b)[i]? = baseHex[i]?) := by
  refine ⟨rfl, rfl, rfl, rfl, rfl, rfl, ?_⟩
  intro i h1 h3 h6 h7 h8 h15
  simp only [buildReport]
  rw [List.getElem?_set_ne (by omega), List.getElem?_set_ne (by omega),
    List.getElem?_set_ne (by omega), List.getElem?_set_ne (by omega),
    List.getElem?_set_ne (by omega)]

theorem build_report_spec_witness :
    (buildReport 200 10 20 30)[0]? = baseHex[0]?
    ∧ (buildReport 200 10 20 30)[3]? = some 200 :=
  ⟨(build_report_spec 200 10 20 30).2.2.2.2.2.2 0 (by decide) (by decide)
      (by decide) (by decide) (by decide) (by decide),
   (build_report_spec 200 10 20 30).2.1⟩

/-- Claim C2: starting from any 8-bit counter, a sequence of N `set_color`
calls on which at least one transport succeeds each time advances the counter
by exactly N mod 256; a call on which both transports fail raises before the
increment, so the error propagates with the counter unchanged by that call. -/
theorem set_color_counter_spec :
    (∀ (c : Controller) (calls : List ((Nat × Nat × Nat) × Transport)),
      c.counter < 256 →
      (∀ x ∈ calls, x.2.raw = .ok ∨ x.2.feature = .ok) →
      runSetColors c calls =
        .ok { c with counter := (c.counter + calls.length) % 256 })
    ∧ (∀ (c : Controller) (r g b : Nat) (t : Transport),
      t.raw = .err → t.feature = .err → c.setColor r g b t = .error ())
    ∧ (∀ (c : Controller) (good : List ((Nat × Nat × Nat) × Transport))
        (bad : (Nat × Nat × Nat) × Transport)
        (rest : List ((Nat × Nat × Nat) × Transport)),
      c.counter < 256 →
      (∀ x ∈ good, x.2.raw = .ok ∨ x.2.feature = .ok) →
      bad.2.raw = .err → bad.2.feature = .err →
      runSetColors c (good ++ bad :: rest) =
        .error { c with counter := (c.counter + good.length) % 256 }) := by
  have hcons : ∀ (c : Controller) (x : (Nat × Nat × Nat) × Transport)
      (rest : List ((Nat × Nat × Nat) × Transport)),
      x.2.raw = .ok ∨ x.2.feature = .ok →
      runSetColors c (x :: rest) =
        runSetColors { c with counter := (c.counter + 1) % 256 } rest := by
    intro c x rest hx
    rcases x with ⟨⟨r, g, b⟩, ⟨raw, feat⟩⟩
    rcases raw
    · simp [runSetColors, Controller.setColor]
    · rcases feat
      · simp [runSetColors, Controller.setColor]
      · have hx' : Outcome.err = Outcome.ok ∨ Outcome.err = Outcome.ok := hx
        rcases hx' with h | h <;> exact Outcome.noConfusion h
  have hdouble : ∀ (c : Controller) (r g b : Nat) (t : Transport),
      t.raw = .err → t.feature = .err → c.setColor r g b t = .error () := by
    intro c r g b t hraw hfeat
    simp [Controller.setColor, hraw, hfeat]
  have hconsFail : ∀ (c : Controller) (x : (Nat × Nat × Nat) × Transport)
      (rest : List ((Nat × Nat × Nat) × Transport)),
      x.2.raw = .err → x.2.feature = .err →
      runSetColors c (x :: rest) = .error c := by
    intro c x rest h1 h2
    rcases x with ⟨⟨r, g, b⟩, ⟨raw, feat⟩⟩
    have h1' : raw = Outcome.err := h1
    have h2' : feat = Outcome.err := h2
    subst h1'
    subst h2'
    simp [runSetColors, Controller.setColor]
  have hrun : ∀ (calls : List ((Nat × Nat × Nat) × Transport))
      (c : Controller), c.counter < 256 →
      (∀ x ∈ calls, x.2.raw = .ok ∨ x.2.feature = .ok) →
      runSetColors c calls =
        .ok { c with counter := (c.counter + calls.length) % 256 } := by
    intro calls
    induction calls with
    | nil =>
      intro c hc _
      rcases c with ⟨dev, cnt⟩
      have hc' : cnt < 256 := hc
      simp only [runSetColors, List.length_nil]
      congr 1
      simp only [Controller.mk.injEq, true_and]
      omega
    | cons x rest ih =>
      intro c hc hall
      rw [hcons c x rest (hall x (by simp))]
      rw [ih { c with counter := (c.counter + 1) % 256 }
        (Nat.mod_lt _ (by omega)) (fun y hy => hall y (by simp [hy]))]
      congr 1
      rcases c with ⟨dev, cnt⟩
      simp only [Controller.mk.injEq, List.length_cons, true_and]
      omega
  refine ⟨fun c calls hc hall => hrun calls c hc hall, hdouble, ?_⟩
  intro c good bad rest
  induction good generalizing c with
  | nil =>
    intro hc hgood hraw hfeat
    rw [List.nil_append, hconsFail c bad rest hraw hfeat]
    congr 1
    rcases c with ⟨dev, cnt⟩
    have hc' : cnt < 256 := hc
    simp only [Controller.mk.injEq, List.length_nil, true_and]
    omega
  | cons x tl ih =>
    intro hc hgood hraw hfeat
    rw [List.cons_append, hcons c x (tl ++ bad :: rest) (hgood x (by simp))]
    rw [ih { c with counter := (c.counter + 1) % 256 }
      (Nat.mod_lt _ (by omega)) (fun y hy => hgood y (by simp [hy])) hraw hfeat]
    congr 1
    rcases c with ⟨dev, cnt⟩
    simp only [Controller.mk.injEq, List.length_cons, true_and]
    omega

theorem set_color_counter_spec_witness :
    runSetColors (mkController "d")
        [((1, 2, 3), ⟨.ok, .ok⟩), ((4, 5, 6), ⟨.err, .ok⟩)] =
      .ok { dev := "d", counter := 16 }
    ∧ (mkController "d").setColor 1 2 3 ⟨.err, .err⟩ = .error () :=
  ⟨set_color_counter_spec.1 (mkController "d")
      [((1, 2, 3), ⟨.ok, .ok⟩), ((4, 5, 6), ⟨.err, .ok⟩)]
      (by decide) (by decide),
   set_color_counter_spec.2.1 (mkController "d") 1 2 3 ⟨.err, .err⟩ rfl rfl⟩

/-- Claim C10: a freshly constructed controller's counter starts at 0x0E
(14), and both the module-level `set_color` convenience function and the CLI
construct a brand-new controller per call, so the report each such invocation
sends carries sequence byte 0x0E. -/
theorem fresh_controller_counter_spec :
    (∀ dev, (mkController dev).counter = 0x0E)
    ∧ (∀ dev r g b t c' rep,
        moduleSetColor dev r g b t = .ok (c', rep) → rep[3]? = some 0x0E)
    ∧ (∀ dev r g b t c' rep,
        cliSetColor dev r g b t = .ok (c', rep) → rep[3]? = some 0x0E) := by
  have key : ∀ dev (r g b : Nat) t (c' : Controller) rep,
      (mkController dev).setColor r g b t = .ok (c', rep) →
      rep[3]? = some 0x0E := by
    intro dev r g b t c' rep h
    rcases t with ⟨raw, feat⟩
    rcases raw <;> rcases feat <;>
      simp [Controller.setColor, mkController] at h <;>
      rw [← h.2] <;>
      exact (build_report_spec 0x0E r g b).2.1
  exact ⟨fun _ => rfl, fun dev r g b t c' rep h => key dev r g b t c' rep h,
    fun dev r g b t c' rep h => key dev r g b t c' rep h⟩

theorem fresh_controller_counter_spec_witness :
    (mkController "d").counter = 0x0E
    ∧ (buildReport 0x0E 9 9 9)[3]? = some 0x0E :=
  ⟨fresh_controller_counter_spec.1 "d",
   fresh_controller_counter_spec.2.1 "d" 9 9 9 ⟨.ok, .ok⟩
      { dev := "d", counter := 15 } (buildReport 0x0E 9 9 9) rfl⟩

/-- Claim C8: the rainbow wheel has period 256 (`wheel 0 = wheel 256`), the
three channels of `wheel pos` sum to exactly 255 at every position, and
`wheel 0` is pure green `(0, 255, 0)`, a primary-color band boundary. -/
theorem wheel_period_sum_spec :
    wheel 0 = wheel 256
    ∧ (∀ pos : Int,
        (wheel pos).1 + (wheel pos).2.1 + (wheel pos).2.2 = 255)
    ∧ wheel 0 = (0, 255, 0) := by
  refine ⟨by decide, ?_, by decide⟩
  intro pos
  simp only [wheel]
  split_ifs <;> simp

/-- Claim C9 counterexample: the claim's parenthetical "maximum attained
channel value from the pos*3 terms is 252" is false.  The first two bands
only reach `84 * 3 = 252`, but the third band spans positions 170..255, so
`pos - 170` reaches 85 and `wheel 255` emits green channel
`(255 - 170) * 3 = 255 > 252`. -/
theorem wheel_band_term_counterexample :
    wheel 255 = (0, (255 - 170) * 3, 255 - (255 - 170) * 3)
    ∧ (255 - 170) * 3 = (255 : Int)
    ∧ ¬((255 - 170) * 3 ≤ (252 : Int)) := by
  exact ⟨by decide, by decide, by decide⟩

/-- Claim C9 amended: `wheel` is total over all integers: the position is
reduced `% 256` to a non-negative value (so `wheel pos = wheel (pos % 256)`),
and every returned channel lies in `[0, 255]`.  The maximum value attained by
a `pos * 3` band term is 255, not 252: the first two bands peak at
`wheel 84 = (84 * 3, 255 - 84 * 3, 0)` with `84 * 3 = 252`, but the third
band runs through position 255 where the green channel is
`(255 - 170) * 3 = 255`; `255 - pos * 3` still never goes below zero inside
a band (it reaches exactly 0 at position 255). -/
theorem wheel_total_range_amended :
    (∀ pos : Int, wheel pos = wheel (pos % 256))
    ∧ (∀ pos : Int,
        0 ≤ (wheel pos).1 ∧ (wheel pos).1 ≤ 255
        ∧ 0 ≤ (wheel pos).2.1 ∧ (wheel pos).2.1 ≤ 255
        ∧ 0 ≤ (wheel pos).2.2 ∧ (wheel pos).2.2 ≤ 255)
    ∧ wheel 84 = (84 * 3, 255 - 84 * 3, 0)
    ∧ wheel 255 = (0, (255 - 170) * 3, 255 - (255 - 170) * 3)
    ∧ (255 - 170) * 3 = (255 : Int) := by
  refine ⟨?_, ?_, by decide, by decide, by decide⟩
  · intro pos
    have h : pos % 256 % 256 = pos % 256 := Int.emod_emod_of_dvd pos dvd_rfl
    simp only [wheel, h]
  · intro pos
    have hlo : 0 ≤ pos % 256 := Int.emod_nonneg pos (by norm_num)
    have hhi : pos % 256 < 256 := Int.emod_lt_of_pos pos (by norm_num)
    simp only [wheel]
    split_ifs <;> simp <;> omega

/-! ## Brightness and fades (webapp.py)

Python float arithmetic in `apply_brightness` and `fade_to` is embedded as
exact rational arithmetic.  Python's `int()` (truncation toward zero) and
`round()` (nearest, ties to even) are made explicit as `pyInt` and
`pyRound`. -/

/-- `clamp` from webapp.py: `lo if v < lo else hi if v > hi else v`. -/
def clampI (v lo hi : Int) : Int :=
  if v < lo then lo else if v > hi then hi else v

/-- Python's `x or default` for an optional integer: `None` and `0` are both
falsy, so either yields the default. -/
def pyOr (v : Option Int) (d : Int) : Int :=
  match v with
  | none => d
  | some x => if x = 0 then d else x

/-- Python's `int()` on a float value: truncation toward zero. -/
def pyInt (q : Rat) : Int :=
  if q < 0 then ⌈q⌉ else ⌊q⌋

/-- Python's `round()` to an integer: nearest, ties go to the even
neighbour. -/
def pyRound (q : Rat) : Int :=
  let fl := ⌊q⌋
  let frac := q - fl
  if frac < 1 / 2 then fl
  else if 1 / 2 < frac then fl + 1
  else if fl % 2 = 0 then fl else fl + 1

/-- `apply_brightness` from webapp.py: clamp brightness to `[0, 100]`, scale
each channel by `brightness / 100.0`, truncate with `int()`. -/
def applyBrightness (r g b brightness : Int) : Int × Int × Int :=
  let br := clampI brightness 0 100
  let scale : Rat := (br : Rat) / 100
  (pyInt ((r : Rat) * scale), pyInt ((g : Rat) * scale),
    pyInt ((b : Rat) * scale))

/-- The body of `FadeRequest` in webapp.py (pydantic model). -/
structure FadeRequest where
  r : Int
  g : Int
  b : Int
  brightness : Option Int := some 100
  durationMs : Int := 800
  steps : Int := 40

/-- The target color computed by the `/api/fade` handler `fade_api`:
`brightness = clamp(req.brightness or 100, 0, 100)` then
`apply_brightness(clamp(r), clamp(g), clamp(b), brightness)`. -/
def fadeApiTarget (req : FadeRequest) : Int × Int × Int :=
  let brightness := clampI (pyOr req.brightness 100) 0 100
  applyBrightness (clampI req.r 0 255) (clampI req.g 0 255)
    (clampI req.b 0 255) brightness

/-- One step of `fade_to`: at iteration `i` (1-based), `t = i / steps` and
each channel is `round(start + (target - start) * t)`. -/
def fadeStep (start target : Int × Int × Int) (steps : Nat) (i : Nat) :
    Int × Int × Int :=
  let t : Rat := (i : Rat) / (steps : Rat)
  (pyRound ((start.1 : Rat) + ((target.1 - start.1 : Int) : Rat) * t),
   pyRound ((start.2.1 : Rat) + ((target.2.1 - start.2.1 : Int) : Rat) * t),
   pyRound ((start.2.2 : Rat) + ((target.2.2 - start.2.2 : Int) : Rat) * t))

/-- The sequence of colors `fade_to` writes: `for i in range(1, steps + 1)`,
i.e. steps `1 .. steps`, each computed by `fadeStep`. -/
def fadeWrites (start target : Int × Int × Int) (steps : Nat) :
    List (Int × Int × Int) :=
  (List.range steps).map (fun i => fadeStep start target steps (i + 1))

/-- `fade_to`'s write sequence including its input clamping: `steps` is
clamped to `[1, 300]` (the `duration_ms` clamp to `[0, 60000]` only affects
the inter-step sleep, not the colors written). -/
def fadeToWrites (start target : Int × Int × Int) (_durationMs steps : Int) :
    List (Int × Int × Int) :=
  fadeWrites start target (clampI steps 1 300).toNat

theorem pyRound_int (m : Int) : pyRound (m : Rat) = m := by
  norm_num [pyRound]

theorem fadeStep_last (A B : Int × Int × Int) (n : Nat) (hn : n ≠ 0) :
    fadeStep A B n n = B := by
  obtain ⟨a1, a2, a3⟩ := A
  obtain ⟨b1, b2, b3⟩ := B
  have ht : ((n : Rat) / (n : Rat)) = 1 := div_self (Nat.cast_ne_zero.mpr hn)
  simp only [fadeStep, ht, mul_one]
  have h1 : (a1 : Rat) + ((b1 - a1 : Int) : Rat) = ((b1 : Int) : Rat) := by
    push_cast
    ring
  have h2 : (a2 : Rat) + ((b2 - a2 : Int) : Rat) = ((b2 : Int) : Rat) := by
    push_cast
    ring
  have h3 : (a3 : Rat) + ((b3 - a3 : Int) : Rat) = ((b3 : Int) : Rat) := by
    push_cast
    ring
  rw [h1, h2, h3, pyRound_int, pyRound_int, pyRound_int]

/-- Claim C6: for every start color, target color and step count S in
[1, 300], a fade emits exactly S writes, the i-th (1-based) computed as
`round(start + (target - start) * i / S)` per channel; the final write
equals the target exactly, and no step-0 write (the unmodified start color)
is emitted — iteration starts at step 1. -/
theorem fade_writes_spec (A B : Int × Int × Int) (d S : Int)
    (h1 : 1 ≤ S) (h2 : S ≤ 300) :
    fadeToWrites A B d S = fadeWrites A B S.toNat
    ∧ (fadeWrites A B S.toNat).length = S.toNat
    ∧ (∀ i, i < S.toNat →
        (fadeWrites A B S.toNat)[i]? = some (fadeStep A B S.toNat (i + 1)))
    ∧ (fadeWrites A B S.toNat)[S.toNat - 1]? = some B := by
  have hS : clampI S 1 300 = S := by
    unfold clampI
    rw [if_neg (by omega), if_neg (by omega)]
  have hn : S.toNat ≠ 0 := by omega
  have hidx : ∀ i, i < S.toNat →
      (fadeWrites A B S.toNat)[i]? = some (fadeStep A B S.toNat (i + 1)) := by
    intro i hi
    simp only [fadeWrites]
    rw [List.getElem?_map, List.getElem?_range hi]
    rfl
  refine ⟨by rw [fadeToWrites, hS], by simp [fadeWrites], hidx, ?_⟩
  have hlast := hidx (S.toNat - 1) (by omega)
  rw [hlast]
  have : S.toNat - 1 + 1 = S.toNat := by omega
  rw [this, fadeStep_last A B S.toNat hn]

theorem fade_writes_spec_witness :
    (fadeWrites (0, 0, 0) (10, 0, 0) 2)[1]? = some ((10 : Int), 0, 0) :=
  (fade_writes_spec (0, 0, 0) (10, 0, 0) 1000 2 (by decide) (by decide)).2.2.2


/-- The concrete `/api/fade` request of the end-to-end scenario in the spec:
fade to (255,0,0) at brightness 50 over 1000 ms in 10 steps. -/
def scenarioReq : FadeRequest :=
  { r := 255, g := 0, b := 0, brightness := some 50, durationMs := 1000,
    steps := 10 }

theorem scenario_target_eval : fadeApiTarget scenarioReq = (127, 0, 0) := by
  norm_num [scenarioReq, fadeApiTarget, applyBrightness, clampI, pyOr, pyInt,
    Prod.mk.injEq]

theorem scenario_clamp_eval :
    fadeToWrites (0, 0, 0) ((127 : Int), 0, 0) 1000 10 =
      fadeWrites (0, 0, 0) (127, 0, 0) 10 := by
  norm_num [fadeToWrites, clampI]
  congr 1

theorem scenario_write9 :
    (fadeToWrites (0, 0, 0) ((127 : Int), 0, 0) 1000 10)[9]? =
      some ((127 : Int), 0, 0) := by
  rw [scenario_clamp_eval]
  simp only [fadeWrites]
  rw [List.getElem?_map, List.getElem?_range (by norm_num)]
  exact congrArg some (fadeStep_last (0, 0, 0) (127, 0, 0) 10 (by norm_num))

theorem scenario_write0 :
    (fadeToWrites (0, 0, 0) ((127 : Int), 0, 0) 1000 10)[0]? =
      some ((13 : Int), 0, 0) := by
  rw [scenario_clamp_eval]
  simp only [fadeWrites]
  rw [List.getElem?_map, List.getElem?_range (by norm_num)]
  have h : fadeStep (0, 0, 0) (127, 0, 0) 10 1 = ((13 : Int), 0, 0) := by
    norm_num [fadeStep, pyRound, Prod.mk.injEq]
  exact congrArg some h

/-- Claim C5 counterexample: for the end-to-end scenario — fade request to
(255,0,0) with brightness 50, duration 1000 ms, 10 steps, starting from
(0,0,0) — the handler target is (127,0,0) because `apply_brightness` uses
`int(255 * 0.5) = 127` (truncation, not rounding), so the step-10 write is
(127,0,0), not (128,0,0) as the claim states. -/
theorem fade_scenario_counterexample :
    fadeApiTarget scenarioReq = (127, 0, 0)
    ∧ (fadeToWrites (0, 0, 0) (127, 0, 0) 1000 10)[9]? =
        some ((127 : Int), 0, 0)
    ∧ ((127 : Int), (0 : Int), (0 : Int)) ≠ ((128 : Int), 0, 0) :=
  ⟨scenario_target_eval, scenario_write9, by decide⟩

/-- Claim C5 amended: in that scenario the target actually sent to the fade
is (127,0,0) — `int(255 * 0.5)` truncates to 127 — so the step-1 write is
(13,0,0) and the step-10 write is exactly (127,0,0). -/
theorem fade_scenario_amended :
    fadeApiTarget scenarioReq = (127, 0, 0)
    ∧ (fadeToWrites (0, 0, 0) (127, 0, 0) 1000 10)[0]? =
        some ((13 : Int), 0, 0)
    ∧ (fadeToWrites (0, 0, 0) (127, 0, 0) 1000 10)[9]? =
        some ((127 : Int), 0, 0) :=
  ⟨scenario_target_eval, scenario_write0, scenario_write9⟩

/-! ## Device locator (device.py)

`find_vendor_device` iterates `sorted(glob.glob("/dev/hidraw*"))` and returns
the first node whose report descriptor starts with `06 00 ff`.
`_is_vendor_descriptor` reads the descriptor file: a `FileNotFoundError` is
caught and treated as no-match, but any other `OSError` (e.g. a
permission-denied read) propagates.  The filesystem is modelled as a function
from device path to the outcome of reading its descriptor. -/

/-- Outcome of reading a candidate's report-descriptor file. -/
inductive ReadResult
  | found (data : List Nat)
  | missing
  | unreadable
deriving DecidableEq

/-- The fixed 3-byte vendor signature `06 00 ff`. -/
def vendorSig : List Nat := [0x06, 0x00, 0xFF]

/-- Errors `find_vendor_device` can surface: the explicit
`RuntimeError("Vendor HID interface not found...")`, or an uncaught OS error
from reading a descriptor. -/
inductive FindErr
  | notFound
  | ioError
deriving DecidableEq

/-- `_is_vendor_descriptor`: read the first 3 bytes of the descriptor and
compare with the signature; `FileNotFoundError` is caught (`False`); any
other read error propagates. -/
def isVendorDescriptor (fs : String → ReadResult) (dev : String) :
    Except Unit Bool :=
  match fs dev with
  | .found data => .ok (decide (data.take 3 = vendorSig))
  | .missing => .ok false
  | .unreadable => .error ()

/-- Whether a candidate's descriptor is readable and carries the vendor
signature (the loop's acceptance test, with unreadable treated as
no-match for bookkeeping). -/
def matchesSig (fs : String → ReadResult) (d : String) : Bool :=
  match fs d with
  | .found data => decide (data.take 3 = vendorSig)
  | _ => false

/-- The `for dev in ...` loop of `find_vendor_device`: first match wins,
errors from `_is_vendor_descriptor` propagate, exhaustion raises the
not-found `RuntimeError`. -/
def findVendorGo (fs : String → ReadResult) :
    List String → Except FindErr String
  | [] => .error .notFound
  | d :: ds =>
    match isVendorDescriptor fs d with
    | .ok true => .ok d
    | .ok false => findVendorGo fs ds
    | .error _ => .error .ioError

/-- `sorted(glob.glob("/dev/hidraw*"))`: the candidate list in stable lexical
order. -/
def sortedDevs (devs : List String) : List String :=
  devs.mergeSort (fun a b => decide (a ≤ b))

/-- `find_vendor_device`: scan the sorted candidates. -/
def findVendorDevice (fs : String → ReadResult) (devs : List String) :
    Except FindErr String :=
  findVendorGo fs (sortedDevs devs)

theorem isVendor_ok_iff (fs : String → ReadResult) (d : String) (b : Bool) :
    isVendorDescriptor fs d = .ok b ↔
      (fs d ≠ .unreadable ∧ matchesSig fs d = b) := by
  unfold isVendorDescriptor matchesSig
  cases fs d <;> simp [eq_comm]

theorem findVendorGo_ok (fs : String → ReadResult) :
    ∀ (l : List String) (d : String), findVendorGo fs l = .ok d →
      d ∈ l ∧ matchesSig fs d = true := by
  intro l
  induction l with
  | nil =>
    intro d h
    exact absurd h (by simp [findVendorGo])
  | cons y ys ih =>
    intro d h
    rw [findVendorGo] at h
    split at h
    next hb =>
      injection h with h
      subst h
      exact ⟨by simp, ((isVendor_ok_iff fs y true).mp hb).2⟩
    next hb =>
      obtain ⟨hmem, hm⟩ := ih d h
      exact ⟨by simp [hmem], hm⟩
    next hb =>
      exact absurd h (by simp)

theorem findVendorGo_first (fs : String → ReadResult) :
    ∀ (l : List String) (d : String),
      l.Pairwise (fun a b => a ≤ b) → findVendorGo fs l = .ok d →
      ∀ x ∈ l, matchesSig fs x = true → d ≤ x := by
  intro l
  induction l with
  | nil =>
    intro d _ h
    exact absurd h (by simp [findVendorGo])
  | cons y ys ih =>
    intro d hp h x hx hmx
    rw [findVendorGo] at h
    split at h
    next hb =>
      injection h with h
      subst h
      rcases List.mem_cons.mp hx with rfl | hx'
      · exact le_refl _
      · exact (List.pairwise_cons.mp hp).1 x hx'
    next hb =>
      rcases List.mem_cons.mp hx with rfl | hx'
      · rw [((isVendor_ok_iff fs x false).mp hb).2] at hmx
        exact absurd hmx (by simp)
      · exact ih d (List.pairwise_cons.mp hp).2 h x hx' hmx
    next hb =>
      exact absurd h (by simp)

theorem findVendorGo_notFound (fs : String → ReadResult) :
    ∀ l : List String, (∀ x ∈ l, fs x ≠ .unreadable) →
      (findVendorGo fs l = .error .notFound ↔
        ∀ x ∈ l, matchesSig fs x = false) := by
  intro l
  induction l with
  | nil =>
    intro _
    simp [findVendorGo]
  | cons y ys ih =>
    intro hnr
    have hy : fs y ≠ .unreadable := hnr y (by simp)
    constructor
    · intro h x hx
      rw [findVendorGo] at h
      split at h
      next hb => exact absurd h (by simp)
      next hb =>
        rcases List.mem_cons.mp hx with rfl | hx'
        · exact ((isVendor_ok_iff fs x false).mp hb).2
        · exact (ih (fun z hz => hnr z (by simp [hz]))).mp h x hx'
      next hb => exact absurd h (by simp)
    · intro hall
      rw [findVendorGo]
      have hb : isVendorDescriptor fs y = .ok false :=
        (isVendor_ok_iff fs y false).mpr ⟨hy, hall y (by simp)⟩
      rw [hb]
      exact (ih (fun z hz => hnr z (by simp [hz]))).mpr
        (fun x hx => hall x (by simp [hx]))

theorem findVendorGo_ioError (fs : String → ReadResult) :
    ∀ l : List String, (∀ x ∈ l, matchesSig fs x = false) →
      (∃ x ∈ l, fs x = .unreadable) →
      findVendorGo fs l = .error .ioError := by
  intro l
  induction l with
  | nil =>
    intro _ h
    simp at h
  | cons y ys ih =>
    intro hnm hex
    rw [findVendorGo]
    by_cases hu : fs y = .unreadable
    · have hb : isVendorDescriptor fs y = .error () := by
        unfold isVendorDescriptor
        rw [hu]
      rw [hb]
    · have hb : isVendorDescriptor fs y = .ok false :=
        (isVendor_ok_iff fs y false).mpr ⟨hu, hnm y (by simp)⟩
      rw [hb]
      apply ih (fun x hx => hnm x (by simp [hx]))
      rcases hex with ⟨x, hx, hux⟩
      rcases List.mem_cons.mp hx with rfl | hx'
      · exact absurd hux hu
      · exact ⟨x, hx', hux⟩

theorem sortedDevs_pairwise (devs : List String) :
    (sortedDevs devs).Pairwise (fun a b => a ≤ b) := by
  have htrans : ∀ a b c : String,
      decide (a ≤ b) = true → decide (b ≤ c) = true →
      decide (a ≤ c) = true := by
    intro a b c h1 h2
    exact decide_eq_true (le_trans (of_decide_eq_true h1)
      (of_decide_eq_true h2))
  have htotal : ∀ a b : String,
      (decide (a ≤ b) || decide (b ≤ a)) = true := by
    intro a b
    rcases le_total a b with h | h <;> simp [h]
  have hp := List.sorted_mergeSort htrans htotal devs
  exact hp.imp (fun h => of_decide_eq_true h)

theorem sortedDevs_mem (devs : List String) (x : String) :
    x ∈ sortedDevs devs ↔ x ∈ devs :=
  (List.mergeSort_perm devs (fun a b => decide (a ≤ b))).mem_iff

/-- A filesystem in which the lexically first candidate's descriptor is
unreadable (e.g. permission denied) and the second candidate carries the
vendor signature. -/
def fsCx : String → ReadResult := fun d =>
  if d = "/dev/hidraw0" then .unreadable
  else if d = "/dev/hidraw1" then .found [0x06, 0x00, 0xFF, 0x01]
  else .missing

/-- Claim C7 counterexample: with an unreadable descriptor on the first
candidate and a matching second candidate, `find_vendor_device` propagates
the read error instead of skipping the unreadable node and returning the
match — refuting "absent or unreadable are skipped". -/
theorem find_vendor_counterexample :
    findVendorDevice fsCx ["/dev/hidraw0", "/dev/hidraw1"] = .error .ioError
    ∧ isVendorDescriptor fsCx "/dev/hidraw1" = .ok true
    ∧ findVendorDevice fsCx ["/dev/hidraw0", "/dev/hidraw1"] ≠
        .ok "/dev/hidraw1" := by
  have hsort : sortedDevs ["/dev/hidraw0", "/dev/hidraw1"] =
      ["/dev/hidraw0", "/dev/hidraw1"] := by
    simp [sortedDevs, List.mergeSort, List.merge]
    decide
  have h0 : findVendorDevice fsCx ["/dev/hidraw0", "/dev/hidraw1"] =
      .error .ioError := by
    rw [findVendorDevice, hsort, findVendorGo]
    have hu : isVendorDescriptor fsCx "/dev/hidraw0" = .error () := by
      simp [isVendorDescriptor, fsCx]
    rw [hu]
  refine ⟨h0, by simp [isVendorDescriptor, fsCx, vendorSig], ?_⟩
  rw [h0]
  simp

/-- Claim C7 amended: the locator scans candidates in stable lexical order
and returns the first (lowest-sorted) node whose descriptor begins with the
vendor signature; candidates whose descriptor file is absent are skipped;
however a candidate whose descriptor file is unreadable is not skipped — the
underlying I/O error propagates; if no candidate matches (and none is
unreadable) it fails with the device-not-found error. -/
theorem find_vendor_amended (fs : String → ReadResult) (devs : List String) :
    (∀ d, findVendorDevice fs devs = .ok d →
      d ∈ devs ∧ matchesSig fs d = true
        ∧ ∀ x ∈ devs, matchesSig fs x = true → d ≤ x)
    ∧ ((∀ x ∈ devs, fs x ≠ .unreadable) →
        (findVendorDevice fs devs = .error .notFound ↔
          ∀ x ∈ devs, matchesSig fs x = false))
    ∧ (∀ d, fs d = .missing → isVendorDescriptor fs d = .ok false)
    ∧ (∀ d, fs d = .unreadable → isVendorDescriptor fs d = .error ())
    ∧ ((∀ x ∈ devs, matchesSig fs x = false) →
        (∃ x ∈ devs, fs x = .unreadable) →
        findVendorDevice fs devs = .error .ioError) := by
  refine ⟨?_, ?_, ?_, ?_, ?_⟩
  · intro d h
    obtain ⟨hmem, hm⟩ := findVendorGo_ok fs (sortedDevs devs) d h
    refine ⟨(sortedDevs_mem devs d).mp hmem, hm, ?_⟩
    intro x hx hmx
    exact findVendorGo_first fs (sortedDevs devs) d (sortedDevs_pairwise devs)
      h x ((sortedDevs_mem devs x).mpr hx) hmx
  · intro hnr
    have hiff := findVendorGo_notFound fs (sortedDevs devs)
      (fun x hx => hnr x ((sortedDevs_mem devs x).mp hx))
    constructor
    · intro h x hx
      exact hiff.mp h x ((sortedDevs_mem devs x).mpr hx)
    · intro hall
      exact hiff.mpr (fun x hx => hall x ((sortedDevs_mem devs x).mp hx))
  · intro d h
    unfold isVendorDescriptor
    rw [h]
  · intro d h
    unfold isVendorDescriptor
    rw [h]
  · intro hnm hex
    apply findVendorGo_ioError
    · exact fun x hx => hnm x ((sortedDevs_mem devs x).mp hx)
    · rcases hex with ⟨x, hx, hu⟩
      exact ⟨x, (sortedDevs_mem devs x).mpr hx, hu⟩

/-- A filesystem where `/dev/hidraw1` matches and all other descriptors are
absent. -/
def fsWitness : String → ReadResult := fun d =>
  if d = "/dev/hidraw1" then .found [0x06, 0x00, 0xFF, 0x09] else .missing

theorem find_vendor_amended_witness :
    "/dev/hidraw1" ∈ ["/dev/hidraw1", "/dev/hidraw0"]
    ∧ matchesSig fsWitness "/dev/hidraw1" = true
    ∧ ∀ x ∈ ["/dev/hidraw1", "/dev/hidraw0"],
        matchesSig fsWitness x = true → "/dev/hidraw1" ≤ x :=
  (find_vendor_amended fsWitness ["/dev/hidraw1", "/dev/hidraw0"]).1
    "/dev/hidraw1" (by
      have hsort : sortedDevs ["/dev/hidraw1", "/dev/hidraw0"] =
          ["/dev/hidraw0", "/dev/hidraw1"] := by
        simp [sortedDevs, List.mergeSort, List.merge]
        decide
      rw [findVendorDevice, hsort, findVendorGo]
      have h0 : isVendorDescriptor fsWitness "/dev/hidraw0" = .ok false := by
        simp [isVendorDescriptor, fsWitness]
      rw [h0, findVendorGo]
      have h1 : isVendorDescriptor fsWitness "/dev/hidraw1" = .ok true := by
        simp [isVendorDescriptor, fsWitness, vendorSig]
      rw [h1])

/-! ## Mode-start handlers (webapp.py): effect_start and sync_start

`effect_start` validates the effect name and, for pulse, the presence of
r/g/b, raising `HTTPException(400)` before any `asyncio.create_task` when
validation fails.  `sync_start` however calls
`asyncio.create_task(screen_sync_loop(req))` unconditionally:
`create_task` schedules the coroutine and returns a `Task` object without
running its body, so the `ValueError` that `screen_sync_loop` raises for an
out-of-range monitor index is raised inside the already-spawned task, not in
the handler — the handler's `try/except` around `create_task` never sees it
and the endpoint answers HTTP 200. -/

/-- Python `.lower().strip()` on an effect name, modelled on the character
list (lower-case every character, then strip whitespace from both ends). -/
def lowerStrip (s : String) : String :=
  let cs := (s.data.map Char.toLower).dropWhile (fun c => c.isWhitespace)
  String.mk ((cs.reverse.dropWhile (fun c => c.isWhitespace)).reverse)

/-- The body of `EffectRequest` in webapp.py (pydantic model). -/
structure EffectRequest where
  effect : String
  speed : Int := 50
  r : Option Int := none
  g : Option Int := none
  b : Option Int := none
  brightness : Option Int := some 100

/-- What a mode-start endpoint returns: the HTTP status and whether an
asyncio task was created before returning. -/
structure HandlerResult where
  httpStatus : Nat
  taskSpawned : Bool
deriving DecidableEq

/-- `effect_start`: normalize the name; `pulse` without r/g/b and unknown
names get HTTP 400 with no task spawned; `pulse` with a color and `rainbow`
spawn their task. -/
def effectStart (req : EffectRequest) : HandlerResult :=
  let eff := lowerStrip req.effect
  if eff = "pulse" then
    if req.r = none ∨ req.g = none ∨ req.b = none then ⟨400, false⟩
    else ⟨200, true⟩
  else if eff = "rainbow" then ⟨200, true⟩
  else ⟨400, false⟩

/-- The validation failure `screen_sync_loop` raises before entering its
write loop. -/
inductive SyncErr
  | invalidMonitor
deriving DecidableEq

/-- The validation prelude of `screen_sync_loop`: with `numMonitors` entries
in `sct.monitors`, `monitor < 1 or monitor >= len(sct.monitors)` raises
`ValueError` — before the drive lock is taken and before any device
write. -/
def screenSyncValidate (numMonitors : Nat) (monitor : Int) :
    Except SyncErr Unit :=
  if monitor < 1 ∨ (numMonitors : Int) ≤ monitor then .error .invalidMonitor
  else .ok ()

/-- Outcome of the `sync_start` endpoint: HTTP status, whether a sync task
was spawned, and what the spawned task's validation prelude does when the
event loop first runs it. -/
structure SyncStartResult where
  httpStatus : Nat
  taskSpawned : Bool
  taskFirstRun : Except SyncErr Unit

/-- `sync_start`: cancel other modes, then unconditionally
`asyncio.create_task(screen_sync_loop(req))`.  `create_task` does not raise
the coroutine's exceptions, so the handler always spawns the task and
returns HTTP 200; the monitor-index validation happens later, inside the
task. -/
def syncStart (numMonitors : Nat) (monitor : Int) : SyncStartResult :=
  { httpStatus := 200, taskSpawned := true,
    taskFirstRun := screenSyncValidate numMonitors monitor }

/-- Claim C3, evaluated on the code: an unknown effect name is indeed
rejected with HTTP 400 before any task is spawned, but a screen-sync start
with an out-of-range monitor index (here monitor 5 with 2 monitor entries,
valid indices only 1) does NOT fail fast: the handler spawns the sync task
and answers HTTP 200, and only the spawned task's first run hits the
`ValueError`.  A valid monitor index passes the task's validation. -/
theorem sync_start_spawns_before_validate :
    effectStart { effect := "disco" } = ⟨400, false⟩
    ∧ (syncStart 2 5).taskSpawned = true
    ∧ (syncStart 2 5).httpStatus = 200
    ∧ (syncStart 2 5).taskFirstRun = .error .invalidMonitor
    ∧ (syncStart 2 1).taskFirstRun = .ok ()
    ∧ effectStart { effect := "rainbow" } = ⟨200, true⟩ := by
  exact ⟨by decide, rfl, rfl, rfl, rfl, by decide⟩

/-! ## Mode-switch coordination (webapp.py): at most one driver task

Model of the asyncio coordination in webapp.py.  The driver bodies
(`fade_to`, `effect_pulse`, `effect_rainbow`, `screen_sync_loop`) all wrap
their write loop in `async with _lock:`; the handlers (`set_color_api`,
`fade_api`, `effect_start`, `sync_start`, `off_api`, `stop_api`) call
`cancel_fade()`, `cancel_effect()` and `cancel_sync()` — which
`task.cancel()` every live driver task — and only then `create_task` the new
driver; the handler body contains no `await` between the cancellations and
the task creation, so it is a single atomic scheduler action.

A `DriverTask` is created, first suspends at the lock acquisition
(`waiting`), becomes `running` when it acquires the drive lock, and is
`done` when it exits (normal completion, observed cancellation, or an error
before or inside the loop — `async with` releases the lock on every exit
path).  A task cancelled (or failing) while still waiting never acquires the
lock.  `Running` in the sense of the spec — "who is writing to the device
right now" — is holding the drive lock. -/

/-- Lifecycle phase of one driver task. -/
inductive TaskPhase
  | waiting
  | running
  | done
deriving DecidableEq

/-- One spawned driver task: its creation id (ids increase with creation
order), its phase, whether `task.cancel()` has been requested, and whether
it ever held the drive lock. -/
structure DriverTask where
  tid : Nat
  phase : TaskPhase
  cancelRequested : Bool
  everHeldLock : Bool
deriving DecidableEq

/-- The scheduler state: the spawned driver tasks, who holds the drive lock
(`_lock`), and the next creation id. -/
structure SchedState where
  tasks : List DriverTask
  lockHolder : Option Nat
  nextTid : Nat

/-- Process start: no tasks, lock free. -/
def initialSched : SchedState :=
  { tasks := [], lockHolder := none, nextTid := 0 }

/-- Update the phase of the task with id `i`; `ever` records lock
acquisition. -/
def setPhase (ts : List DriverTask) (i : Nat) (p : TaskPhase) (ever : Bool) :
    List DriverTask :=
  ts.map fun t =>
    if t.tid = i then
      { t with phase := p, everHeldLock := t.everHeldLock || ever }
    else t

/-- `cancel_fade(); cancel_effect(); cancel_sync()`: request cancellation of
every live driver task. -/
def cancelAll (ts : List DriverTask) : List DriverTask :=
  ts.map fun t => { t with cancelRequested := true }

/-- One step of the cooperative scheduler. -/
inductive SchedStep : SchedState → SchedState → Prop
  /-- A mode-start handler runs: cancel every existing task, then
  `asyncio.create_task` the new driver (atomic — no `await` in between). -/
  | startMode (s : SchedState) :
      SchedStep s
        { tasks := cancelAll s.tasks ++
            [{ tid := s.nextTid, phase := .waiting, cancelRequested := false,
               everHeldLock := false }],
          lockHolder := s.lockHolder, nextTid := s.nextTid + 1 }
  /-- A waiting, uncancelled task acquires the free drive lock and enters
  its write loop. -/
  | acquireLock (s : SchedState) (t : DriverTask) (ht : t ∈ s.tasks)
      (hw : t.phase = .waiting) (hc : t.cancelRequested = false)
      (hl : s.lockHolder = none) :
      SchedStep s
        { tasks := setPhase s.tasks t.tid .running true,
          lockHolder := some t.tid, nextTid := s.nextTid }
  /-- A task still waiting for the lock exits without acquiring it
  (cancellation observed at the suspension point, or an error — e.g.
  `screen_sync_loop`'s monitor validation — before the lock). -/
  | exitWaiting (s : SchedState) (t : DriverTask) (ht : t ∈ s.tasks)
      (hw : t.phase = .waiting) :
      SchedStep s
        { tasks := setPhase s.tasks t.tid .done false,
          lockHolder := s.lockHolder, nextTid := s.nextTid }
  /-- The running task exits its loop (completion, observed cancellation, or
  error); `async with` releases the drive lock. -/
  | finishRunning (s : SchedState) (t : DriverTask) (ht : t ∈ s.tasks)
      (hr : t.phase = .running) :
      SchedStep s
        { tasks := setPhase s.tasks t.tid .done false,
          lockHolder := none, nextTid := s.nextTid }

/-- States reachable from process start. -/
def SchedReachable (s : SchedState) : Prop :=
  Relation.ReflTransGen SchedStep initialSched s

/-- The inductive invariant: ids are bounded and strictly increasing along
the task list (creation order), a running task is the lock holder, and a
task that ever held the lock is running or done — never waiting again. -/
def SchedInv (s : SchedState) : Prop :=
  (∀ t ∈ s.tasks, t.tid < s.nextTid)
  ∧ s.tasks.Pairwise (fun a b => a.tid < b.tid)
  ∧ (∀ t ∈ s.tasks, t.phase = .running → s.lockHolder = some t.tid)
  ∧ (∀ t ∈ s.tasks, t.everHeldLock = true → t.phase ≠ .done →
      t.phase = .running)

theorem setPhase_cases {ts : List DriverTask} {i : Nat} {p : TaskPhase}
    {e : Bool} {u : DriverTask} (hu : u ∈ setPhase ts i p e) :
    ∃ v, v ∈ ts ∧
      ((v.tid = i ∧
        u = { v with phase := p, everHeldLock := v.everHeldLock || e })
      ∨ (v.tid ≠ i ∧ u = v)) := by
  simp only [setPhase, List.mem_map] at hu
  obtain ⟨v, hv, hvu⟩ := hu
  refine ⟨v, hv, ?_⟩
  by_cases h : v.tid = i
  · exact Or.inl ⟨h, by rw [← hvu, if_pos h]⟩
  · exact Or.inr ⟨h, by rw [← hvu, if_neg h]⟩

theorem setPhase_tid {ts : List DriverTask} {i : Nat} {p : TaskPhase}
    {e : Bool} {u : DriverTask} (hu : u ∈ setPhase ts i p e) :
    ∃ v, v ∈ ts ∧ u.tid = v.tid := by
  obtain ⟨v, hv, huv | huv⟩ := setPhase_cases hu
  · exact ⟨v, hv, by rw [huv.2]⟩
  · exact ⟨v, hv, by rw [huv.2]⟩

theorem cancelAll_cases {ts : List DriverTask} {u : DriverTask}
    (hu : u ∈ cancelAll ts) :
    ∃ v, v ∈ ts ∧ u = { v with cancelRequested := true } := by
  simp only [cancelAll, List.mem_map] at hu
  obtain ⟨v, hv, hvu⟩ := hu
  exact ⟨v, hv, hvu.symm⟩

theorem pairwise_tid_inj (ts : List DriverTask) :
    ts.Pairwise (fun a b => a.tid < b.tid) →
    ∀ t ∈ ts, ∀ u ∈ ts, t.tid = u.tid → t = u := by
  induction ts with
  | nil =>
    intro _ t ht
    simp at ht
  | cons x xs ih =>
    intro hp t ht u hu heq
    obtain ⟨hx, hxs⟩ := List.pairwise_cons.mp hp
    rcases List.mem_cons.mp ht with rfl | ht' <;>
      rcases List.mem_cons.mp hu with h2 | hu'
    · rw [h2]
    · exact absurd heq (by have := hx u hu'; omega)
    · rw [h2] at heq
      exact absurd heq (by have := hx t ht'; omega)
    · exact ih hxs t ht' u hu' heq

theorem sched_inv_init : SchedInv initialSched := by
  refine ⟨?_, ?_, ?_, ?_⟩ <;> simp [initialSched]

theorem sched_inv_step (s s' : SchedState) (hinv : SchedInv s)
    (hstep : SchedStep s s') : SchedInv s' := by
  obtain ⟨h1, h2, h3, h4⟩ := hinv
  cases hstep with
  | startMode =>
    refine ⟨?_, ?_, ?_, ?_⟩
    · intro u hu
      rcases List.mem_append.mp hu with hu' | hu'
      · obtain ⟨v, hv, rfl⟩ := cancelAll_cases hu'
        exact Nat.lt_succ_of_lt (h1 v hv)
      · simp only [List.mem_singleton] at hu'
        subst hu'
        exact Nat.lt_succ_self _
    · apply List.pairwise_append.mpr
      refine ⟨?_, by simp, ?_⟩
      · exact h2.map _ (fun a b hab => hab)
      · intro a ha b hb
        simp only [List.mem_singleton] at hb
        subst hb
        obtain ⟨v, hv, rfl⟩ := cancelAll_cases ha
        exact h1 v hv
    · intro u hu hr
      rcases List.mem_append.mp hu with hu' | hu'
      · obtain ⟨v, hv, rfl⟩ := cancelAll_cases hu'
        exact h3 v hv hr
      · simp only [List.mem_singleton] at hu'
        subst hu'
        exact absurd hr (by simp)
    · intro u hu he hd
      rcases List.mem_append.mp hu with hu' | hu'
      · obtain ⟨v, hv, rfl⟩ := cancelAll_cases hu'
        exact h4 v hv he hd
      · simp only [List.mem_singleton] at hu'
        subst hu'
        exact absurd he (by simp)
  | acquireLock t ht hw hc hl =>
    refine ⟨?_, ?_, ?_, ?_⟩
    · intro u hu
      obtain ⟨v, hv, huv⟩ := setPhase_tid hu
      rw [huv]
      exact h1 v hv
    · simp only [setPhase]
      exact h2.map _ (fun a b hab => by split_ifs <;> simpa using hab)
    · intro u hu hr
      obtain ⟨v, hv, hcase⟩ := setPhase_cases hu
      rcases hcase with ⟨hvt, rfl⟩ | ⟨hvt, rfl⟩
      · exact congrArg some hvt.symm
      · have hlock := h3 u hv hr
        rw [hl] at hlock
        exact absurd hlock (by simp)
    · intro u hu he hd
      obtain ⟨v, hv, hcase⟩ := setPhase_cases hu
      rcases hcase with ⟨hvt, rfl⟩ | ⟨hvt, rfl⟩
      · rfl
      · have hlock := h3 u hv (h4 u hv he hd)
        rw [hl] at hlock
        exact absurd hlock (by simp)
  | exitWaiting t ht hw =>
    refine ⟨?_, ?_, ?_, ?_⟩
    · intro u hu
      obtain ⟨v, hv, huv⟩ := setPhase_tid hu
      rw [huv]
      exact h1 v hv
    · simp only [setPhase]
      exact h2.map _ (fun a b hab => by split_ifs <;> simpa using hab)
    · intro u hu hr
      obtain ⟨v, hv, hcase⟩ := setPhase_cases hu
      rcases hcase with ⟨hvt, rfl⟩ | ⟨hvt, rfl⟩
      · exact absurd hr (by simp)
      · exact h3 u hv hr
    · intro u hu he hd
      obtain ⟨v, hv, hcase⟩ := setPhase_cases hu
      rcases hcase with ⟨hvt, rfl⟩ | ⟨hvt, rfl⟩
      · exact absurd rfl hd
      · exact h4 u hv he hd
  | finishRunning t ht hr0 =>
    refine ⟨?_, ?_, ?_, ?_⟩
    · intro u hu
      obtain ⟨v, hv, huv⟩ := setPhase_tid hu
      rw [huv]
      exact h1 v hv
    · simp only [setPhase]
      exact h2.map _ (fun a b hab => by split_ifs <;> simpa using hab)
    · intro u hu hr
      obtain ⟨v, hv, hcase⟩ := setPhase_cases hu
      rcases hcase with ⟨hvt, rfl⟩ | ⟨hvt, rfl⟩
      · exact absurd hr (by simp)
      · have e1 := h3 u hv hr
        have e2 := h3 t ht hr0
        rw [e2] at e1
        exact absurd (Option.some.inj e1).symm hvt
    · intro u hu he hd
      obtain ⟨v, hv, hcase⟩ := setPhase_cases hu
      rcases hcase with ⟨hvt, rfl⟩ | ⟨hvt, rfl⟩
      · exact absurd rfl hd
      · have e1 := h3 u hv (h4 u hv he hd)
        have e2 := h3 t ht hr0
        rw [e2] at e1
        exact absurd (Option.some.inj e1).symm hvt

theorem sched_reachable_inv (s : SchedState) (hs : SchedReachable s) :
    SchedInv s := by
  induction hs with
  | refl => exact sched_inv_init
  | tail hsteps hstep ih => exact sched_inv_step _ _ ih hstep

/-- Claim C4: in every reachable scheduler state, at most one driver task is
Running (holds the drive lock) system-wide; and whenever a task is Running,
every earlier-created task that ever ran has already completed — the new
driver only transitions to Running after the previously Running task has
finished, because mode-start cancels first and the drive lock is only
released when the old task exits. -/
theorem driver_task_exclusion_spec (s : SchedState)
    (hs : SchedReachable s) :
    (∀ t ∈ s.tasks, ∀ u ∈ s.tasks,
      t.phase = .running → u.phase = .running → t = u)
    ∧ (∀ t ∈ s.tasks, ∀ u ∈ s.tasks,
      t.phase = .running → u.tid < t.tid → u.everHeldLock = true →
      u.phase = .done) := by
  obtain ⟨h1, h2, h3, h4⟩ := sched_reachable_inv s hs
  constructor
  · intro t ht u hu hrt hru
    have et := h3 t ht hrt
    have eu := h3 u hu hru
    rw [et] at eu
    exact pairwise_tid_inj s.tasks h2 t ht u hu (Option.some.inj eu)
  · intro t ht u hu hrt hlt heu
    by_contra hne
    have hur := h4 u hu heu hne
    have et := h3 t ht hrt
    have eu := h3 u hu hur
    rw [et] at eu
    have := Option.some.inj eu
    omega

theorem driver_task_exclusion_spec_witness :
    (∀ t ∈ initialSched.tasks, ∀ u ∈ initialSched.tasks,
      t.phase = .running → u.phase = .running → t = u)
    ∧ (∀ t ∈ initialSched.tasks, ∀ u ∈ initialSched.tasks,
      t.phase = .running → u.tid < t.tid → u.everHeldLock = true →
      u.phase = .done) :=
  driver_task_exclusion_spec initialSched Relation.ReflTransGen.refl
